import Mathlib

/-!
Verification of the Patient Flow Prioritization Engine of the clinic-queue
repository: a shallow embedding in Lean 4 of the triage scorer
(backend/src/utils/triage.ts), the queue coordinator
(backend/src/services/queue.service.ts and backend/src/models/Queue.ts) and
the appointment scheduler (backend/src/services/appointment.service.ts and
backend/src/models/Appointment.ts), together with theorems settling the
spec claims about them.

Modelling conventions:
* JavaScript numbers holding vitals are modelled as rationals; times are
  naturals (milliseconds since an epoch for appointments, abstract clock
  ticks for the queue); MongoDB ObjectIds are naturals.
* MongoDB sorts on string fields compare the UTF-8 bytes of the strings;
  the embedding keeps the stored strings of the priority field and compares
  them bytewise, exactly as a sort with direction -1 does.
* Fallible service methods return an Except value; the injectable clock of
  the service layer is an explicit argument.
-/

namespace ClinicQueue

/-! ## Triage scorer (backend/src/utils/triage.ts) -/

/-- Input of calculateTriageScore: the vitals and the symptom text. -/
structure TriageInput where
  temperature : ℚ
  heartRate : ℚ
  bloodPressureSystolic : ℚ
  bloodPressureDiastolic : ℚ
  painLevel : ℚ
  symptoms : String
deriving DecidableEq

/-- Temperature factor: the if/else-if chain over
TRIAGE_RULES.temperature (critical 103/95 for 30 points, serious
101.5/96 for 20, moderate 100/97 for 10). -/
def tempPoints (t : ℚ) : ℤ :=
  if 103 ≤ t ∨ t ≤ 95 then 30
  else if 101.5 ≤ t ∨ t ≤ 96 then 20
  else if 100 ≤ t ∨ t ≤ 97 then 10
  else 0

/-- Heart-rate factor: TRIAGE_RULES.heartRate (critical 120/50 for 25,
serious 110/55 for 15, moderate 100/60 for 5). -/
def hrPoints (hr : ℚ) : ℤ :=
  if 120 ≤ hr ∨ hr ≤ 50 then 25
  else if 110 ≤ hr ∨ hr ≤ 55 then 15
  else if 100 ≤ hr ∨ hr ≤ 60 then 5
  else 0

/-- Blood-pressure factor: deltas from 120/80; the critical tier pays the
systolic constant (40) whichever delta triggered it, then 25, then 10. -/
def bpPoints (sys dia : ℚ) : ℤ :=
  if 40 ≤ |sys - 120| ∨ 30 ≤ |dia - 80| then 40
  else if 25 ≤ |sys - 120| ∨ 20 ≤ |dia - 80| then 25
  else if 10 ≤ |sys - 120| ∨ 10 ≤ |dia - 80| then 10
  else 0

/-- Pain factor: TRIAGE_RULES.pain (severe at 8 for 20, moderate at 5
for 10, mild at 1 for 3). -/
def painPoints (p : ℚ) : ℤ :=
  if 8 ≤ p then 20
  else if 5 ≤ p then 10
  else if 1 ≤ p then 3
  else 0

/-- Bytewise check that the second character list occurs at the start of
the first (String.prototype.startsWith over the decoded characters). -/
def charsStartWith : List Char → List Char → Bool
  | _, [] => true
  | [], _ :: _ => false
  | a :: as, b :: bs => a == b && charsStartWith as bs

/-- Substring containment (String.prototype.includes): the needle occurs
at the start of some suffix of the haystack. -/
def charsContain : List Char → List Char → Bool
  | [], needle => charsStartWith [] needle
  | a :: t, needle => charsStartWith (a :: t) needle || charsContain t needle

/-- TRIAGE_RULES.symptoms.critical.keywords. -/
def criticalKeywords : List String :=
  ["chest pain", "difficulty breathing", "severe bleeding", "unconscious",
   "stroke", "heart attack"]

/-- TRIAGE_RULES.symptoms.serious.keywords. -/
def seriousKeywords : List String :=
  ["broken bone", "severe injury", "poisoning", "shock", "seizure",
   "allergic reaction"]

/-- Case-insensitive keyword containment of one keyword in the symptom
text (both sides lowercased, as in the source). -/
def keywordHit (symptoms keyword : String) : Bool :=
  charsContain (symptoms.data.map Char.toLower) (keyword.data.map Char.toLower)

/-- Symptom factor: 40 points when a critical keyword matches, otherwise
25 when a serious keyword matches (the serious set is only consulted when
no critical keyword matched). -/
def symptomPoints (symptoms : String) : ℤ :=
  if criticalKeywords.any (fun k => keywordHit symptoms k) then 40
  else if seriousKeywords.any (fun k => keywordHit symptoms k) then 25
  else 0

/-- calculateTriageScore: additive accumulation of the five factors.  The
source finishes with Math.round, which is the identity here because every
contribution is an integer. -/
def calculateTriageScore (i : TriageInput) : ℤ :=
  tempPoints i.temperature + hrPoints i.heartRate +
    bpPoints i.bloodPressureSystolic i.bloodPressureDiastolic +
    painPoints i.painLevel + symptomPoints i.symptoms

lemma tempPoints_bounds (t : ℚ) : 0 ≤ tempPoints t ∧ tempPoints t ≤ 30 := by
  unfold tempPoints; split_ifs <;> norm_num

lemma hrPoints_bounds (hr : ℚ) : 0 ≤ hrPoints hr ∧ hrPoints hr ≤ 25 := by
  unfold hrPoints; split_ifs <;> norm_num

lemma bpPoints_bounds (sys dia : ℚ) : 0 ≤ bpPoints sys dia ∧ bpPoints sys dia ≤ 40 := by
  unfold bpPoints; split_ifs <;> norm_num

lemma painPoints_bounds (p : ℚ) : 0 ≤ painPoints p ∧ painPoints p ≤ 20 := by
  unfold painPoints; split_ifs <;> norm_num

lemma symptomPoints_bounds (s : String) : 0 ≤ symptomPoints s ∧ symptomPoints s ≤ 40 := by
  unfold symptomPoints; split_ifs <;> norm_num

/-- C10: for every input (any rational vitals, any symptom string) the
triage score is a non-negative integer and is at most
155 = 30 + 25 + 40 + 20 + 40: each of the five factors contributes at most
its top tier once, and the critical and serious symptom bonuses are
mutually exclusive. -/
theorem C10_score_bounded (i : TriageInput) :
    0 ≤ calculateTriageScore i ∧ calculateTriageScore i ≤ 155 := by
  have h1 := tempPoints_bounds i.temperature
  have h2 := hrPoints_bounds i.heartRate
  have h3 := bpPoints_bounds i.bloodPressureSystolic i.bloodPressureDiastolic
  have h4 := painPoints_bounds i.painLevel
  have h5 := symptomPoints_bounds i.symptoms
  unfold calculateTriageScore
  constructor <;> linarith [h1.1, h1.2, h2.1, h2.2, h3.1, h3.2, h4.1, h4.2, h5.1, h5.2]

lemma tempPoints_mono_up {t₁ t₂ : ℚ} (h0 : (98.6 : ℚ) ≤ t₁) (h : t₁ ≤ t₂) :
    tempPoints t₁ ≤ tempPoints t₂ := by
  unfold tempPoints
  split_ifs <;>
    first
      | decide
      | (exfalso; simp only [not_or, not_le] at *; casesm* _ ∨ _, _ ∧ _ <;> linarith)

lemma tempPoints_mono_down {t₁ t₂ : ℚ} (h0 : t₁ ≤ (98.6 : ℚ)) (h : t₂ ≤ t₁) :
    tempPoints t₁ ≤ tempPoints t₂ := by
  unfold tempPoints
  split_ifs <;>
    first
      | decide
      | (exfalso; simp only [not_or, not_le] at *; casesm* _ ∨ _, _ ∧ _ <;> linarith)

lemma hrPoints_mono_up {h₁ h₂ : ℚ} (h0 : (100 : ℚ) ≤ h₁) (h : h₁ ≤ h₂) :
    hrPoints h₁ ≤ hrPoints h₂ := by
  unfold hrPoints
  split_ifs <;>
    first
      | decide
      | (exfalso; simp only [not_or, not_le] at *; casesm* _ ∨ _, _ ∧ _ <;> linarith)

lemma hrPoints_mono_down {h₁ h₂ : ℚ} (h0 : h₁ ≤ (60 : ℚ)) (h : h₂ ≤ h₁) :
    hrPoints h₁ ≤ hrPoints h₂ := by
  unfold hrPoints
  split_ifs <;>
    first
      | decide
      | (exfalso; simp only [not_or, not_le] at *; casesm* _ ∨ _, _ ∧ _ <;> linarith)

lemma bpPoints_mono_sys {s₁ s₂ d : ℚ} (h : |s₁ - 120| ≤ |s₂ - 120|) :
    bpPoints s₁ d ≤ bpPoints s₂ d := by
  unfold bpPoints
  split_ifs <;>
    first
      | decide
      | (exfalso; simp only [not_or, not_le] at *; casesm* _ ∨ _, _ ∧ _ <;> linarith)

lemma bpPoints_mono_dia {s d₁ d₂ : ℚ} (h : |d₁ - 80| ≤ |d₂ - 80|) :
    bpPoints s d₁ ≤ bpPoints s d₂ := by
  unfold bpPoints
  split_ifs <;>
    first
      | decide
      | (exfalso; simp only [not_or, not_le] at *; casesm* _ ∨ _, _ ∧ _ <;> linarith)

lemma painPoints_mono {p₁ p₂ : ℚ} (h : p₁ ≤ p₂) :
    painPoints p₁ ≤ painPoints p₂ := by
  unfold painPoints
  split_ifs <;>
    first
      | decide
      | (exfalso; simp only [not_or, not_le] at *; linarith)

/-- C9 (counterexample): moving the temperature 95.9°F → 101.4°F strictly
increases its deviation from 98.6°F (2.7 → 2.8) with every other input
fixed, yet it strictly decreases the score (20 → 10), because the low-side
serious band starts at a smaller deviation (96, distance 2.6) than the
high-side band (101.5, distance 2.9).  This refutes the claim as stated. -/
theorem C9_deviation_monotonicity_counterexample :
    |(95.9 : ℚ) - 98.6| < |(101.4 : ℚ) - 98.6| ∧
    calculateTriageScore ⟨101.4, 72, 120, 80, 0, "routine"⟩ <
      calculateTriageScore ⟨95.9, 72, 120, 80, 0, "routine"⟩ := by
  have e1 : tempPoints 101.4 = 10 := by norm_num [tempPoints]
  have e2 : tempPoints 95.9 = 20 := by norm_num [tempPoints]
  have e3 : hrPoints 72 = 0 := by norm_num [hrPoints]
  have e4 : bpPoints 120 80 = 0 := by norm_num [bpPoints]
  have e5 : painPoints 0 = 0 := by norm_num [painPoints]
  have e6 : symptomPoints "routine" = 0 := by decide
  refine ⟨?_, ?_⟩
  · rw [abs_of_nonpos (by norm_num : (95.9 : ℚ) - 98.6 ≤ 0),
      abs_of_nonneg (by norm_num : (0 : ℚ) ≤ (101.4 : ℚ) - 98.6)]
    norm_num
  · simp only [calculateTriageScore, e1, e2, e3, e4, e5, e6]
    norm_num

/-- C9 (amended): increasing a single vital's deviation from its normal
value on a fixed side of normal never decreases the score, all other
inputs held fixed: temperature away from 98.6°F upwards or downwards,
heart rate above 100 or below 60 BPM, systolic deviation from 120,
diastolic deviation from 80, and pain level. -/
theorem C9_directional_monotonicity :
    (∀ (i : TriageInput) (t₁ t₂ : ℚ), (98.6 : ℚ) ≤ t₁ → t₁ ≤ t₂ →
        calculateTriageScore { i with temperature := t₁ } ≤
          calculateTriageScore { i with temperature := t₂ }) ∧
    (∀ (i : TriageInput) (t₁ t₂ : ℚ), t₁ ≤ (98.6 : ℚ) → t₂ ≤ t₁ →
        calculateTriageScore { i with temperature := t₁ } ≤
          calculateTriageScore { i with temperature := t₂ }) ∧
    (∀ (i : TriageInput) (h₁ h₂ : ℚ), (100 : ℚ) ≤ h₁ → h₁ ≤ h₂ →
        calculateTriageScore { i with heartRate := h₁ } ≤
          calculateTriageScore { i with heartRate := h₂ }) ∧
    (∀ (i : TriageInput) (h₁ h₂ : ℚ), h₁ ≤ (60 : ℚ) → h₂ ≤ h₁ →
        calculateTriageScore { i with heartRate := h₁ } ≤
          calculateTriageScore { i with heartRate := h₂ }) ∧
    (∀ (i : TriageInput) (s₁ s₂ : ℚ), |s₁ - 120| ≤ |s₂ - 120| →
        calculateTriageScore { i with bloodPressureSystolic := s₁ } ≤
          calculateTriageScore { i with bloodPressureSystolic := s₂ }) ∧
    (∀ (i : TriageInput) (d₁ d₂ : ℚ), |d₁ - 80| ≤ |d₂ - 80| →
        calculateTriageScore { i with bloodPressureDiastolic := d₁ } ≤
          calculateTriageScore { i with bloodPressureDiastolic := d₂ }) ∧
    (∀ (i : TriageInput) (p₁ p₂ : ℚ), p₁ ≤ p₂ →
        calculateTriageScore { i with painLevel := p₁ } ≤
          calculateTriageScore { i with painLevel := p₂ }) := by
  refine ⟨?_, ?_, ?_, ?_, ?_, ?_, ?_⟩ <;> intro i a b hb₁ <;>
    try intro hb₂
  all_goals simp only [calculateTriageScore]
  · exact add_le_add (add_le_add (add_le_add (add_le_add
      (tempPoints_mono_up hb₁ hb₂) le_rfl) le_rfl) le_rfl) le_rfl
  · exact add_le_add (add_le_add (add_le_add (add_le_add
      (tempPoints_mono_down hb₁ hb₂) le_rfl) le_rfl) le_rfl) le_rfl
  · exact add_le_add (add_le_add (add_le_add (add_le_add
      le_rfl (hrPoints_mono_up hb₁ hb₂)) le_rfl) le_rfl) le_rfl
  · exact add_le_add (add_le_add (add_le_add (add_le_add
      le_rfl (hrPoints_mono_down hb₁ hb₂)) le_rfl) le_rfl) le_rfl
  · exact add_le_add (add_le_add (add_le_add (add_le_add
      le_rfl le_rfl) (bpPoints_mono_sys hb₁)) le_rfl) le_rfl
  · exact add_le_add (add_le_add (add_le_add (add_le_add
      le_rfl le_rfl) (bpPoints_mono_dia hb₁)) le_rfl) le_rfl
  · exact add_le_add (add_le_add (add_le_add (add_le_add
      le_rfl le_rfl) le_rfl) (painPoints_mono hb₁)) le_rfl

/-- Witness for C9_directional_monotonicity at a concrete input. -/
theorem C9_directional_monotonicity_witness :
    (98.6 : ℚ) ≤ 99 ∧ (99 : ℚ) ≤ 104 ∧
    calculateTriageScore ⟨99, 72, 120, 80, 0, "routine"⟩ ≤
      calculateTriageScore ⟨104, 72, 120, 80, 0, "routine"⟩ :=
  ⟨by norm_num, by norm_num,
    C9_directional_monotonicity.1 ⟨0, 72, 120, 80, 0, "routine"⟩
      99 104 (by norm_num) (by norm_num)⟩

/-! ## Appointment scheduler (backend/src/models/Appointment.ts and
backend/src/services/appointment.service.ts)

Times are milliseconds; an appointment interval is
[scheduledTime, scheduledTime + duration * 60000) with duration in
minutes, exactly as in the source. -/

/-- Appointment status enumeration of the Appointment schema. -/
inductive AStatus where
  | scheduled | confirmed | checkedIn | inProgress | completed | cancelled | noShow
deriving DecidableEq, Repr

/-- The fields of an Appointment document that conflict detection reads. -/
structure Appointment where
  id : Nat
  doctor : Nat
  scheduledTime : Nat
  duration : Nat
  status : AStatus
deriving DecidableEq, Repr

/-- Membership in the active status set used by the conflict query. -/
def isActiveStatus : AStatus → Bool
  | .scheduled | .confirmed | .checkedIn | .inProgress => true
  | _ => false

/-- Appointment.findConflictingAppointments(doctorId, start, duration):
filters the doctor's active appointments with the query
  scheduledTime in [start, end)  OR
  (scheduledTime + duration*60000 < end AND scheduledTime + duration*60000 > start)
where end = start + duration*60000.  Note the static accepts exactly
three parameters after the collection. -/
def findConflictingAppointments (appts : List Appointment) (doctorId : Nat)
    (start : Nat) (duration : Nat) : List Appointment :=
  let endTime := start + duration * 60000
  appts.filter fun a =>
    a.doctor == doctorId && isActiveStatus a.status &&
      ((decide (start ≤ a.scheduledTime) && decide (a.scheduledTime < endTime)) ||
        (decide (a.scheduledTime + a.duration * 60000 < endTime) &&
          decide (a.scheduledTime + a.duration * 60000 > start)))

/-- The call shape used by AppointmentService (updateAppointment and
checkDoctorAvailability): the service passes a fourth
excludeAppointmentId argument, but the model's static method takes only
three parameters, so JavaScript drops the extra argument and no
exclusion happens. -/
def findConflictingAppointmentsCalled (appts : List Appointment) (doctorId : Nat)
    (start : Nat) (duration : Nat) (excludeAppointmentId : Option Nat) :
    List Appointment :=
  findConflictingAppointments appts doctorId start duration

/-- The spec's overlap relation on half-open interval parameters:
[s1, s1 + d1*60000) and [s2, s2 + d2*60000) overlap. -/
def specOverlap (s₁ d₁ s₂ d₂ : Nat) : Prop :=
  s₁ < s₂ + d₂ * 60000 ∧ s₂ < s₁ + d₁ * 60000

/-- C3: the conflict query is not the spec's overlap relation.  With the
clock in minutes-from-midnight times 60000 ms: a doctor has an active
appointment 10:00-11:00; the availability request 10:15 for 30 minutes
overlaps it under the spec formula, yet the query returns no conflicts,
because neither disjunct covers an existing appointment that contains the
requested interval.  The spec's own 10:00-10:30 scenario, whose end lies
strictly inside the requested interval, is caught. -/
theorem C3_conflict_query_misses_containment :
    specOverlap 36900000 30 36000000 60 ∧
    findConflictingAppointments [⟨1, 1, 36000000, 60, .scheduled⟩] 1 36900000 30 = [] ∧
    findConflictingAppointments [⟨1, 1, 36000000, 30, .scheduled⟩] 1 36900000 30 =
      [⟨1, 1, 36000000, 30, .scheduled⟩] := by
  refine ⟨⟨by norm_num, by norm_num⟩, by decide, by decide⟩

/-- C4: both halves of the claim fail on the code.  (a) The service's
excludeId argument is dropped by the three-parameter model static, so a
conflict check at an appointment's own time with its own id passed as
excludeId still returns that appointment.  (b) The relation is not
symmetric: for the active appointments A1 = 10:15-10:45 and
A2 = 10:00-11:00 of the same doctor, the check at A2's time and duration
returns A1, but the check at A1's time and duration does not return A2. -/
theorem C4_exclude_dropped_and_asymmetry :
    findConflictingAppointmentsCalled [⟨1, 1, 36000000, 30, .scheduled⟩] 1
        36000000 30 (some 1) = [⟨1, 1, 36000000, 30, .scheduled⟩] ∧
    (⟨1, 1, 36900000, 30, .confirmed⟩ : Appointment) ∈
      findConflictingAppointmentsCalled
        [⟨1, 1, 36900000, 30, .confirmed⟩, ⟨2, 1, 36000000, 60, .scheduled⟩] 1
        36000000 60 none ∧
    (⟨2, 1, 36000000, 60, .scheduled⟩ : Appointment) ∉
      findConflictingAppointmentsCalled
        [⟨1, 1, 36900000, 30, .confirmed⟩, ⟨2, 1, 36000000, 60, .scheduled⟩] 1
        36900000 30 none := by
  refine ⟨by decide, by decide, by decide⟩

/-- One day in milliseconds. -/
def dayMs : Nat := 86400000

/-- The candidate built by the slot-search loops: take the date of the
base time (midnight, modelling setDate/setHours on a copy of the
preferred time), add the day offset, and set hour/minute. -/
def slotTime (base dayOffset hour minute : Nat) : Nat :=
  (base / dayMs) * dayMs + dayOffset * dayMs + hour * 3600000 + minute * 60000

/-- The loop nest of findNextAvailableSlots in iteration order: day
offsets 0..2, hours 9..16, minutes 0 and 30. -/
def slotGrid : List (Nat × Nat × Nat) :=
  (List.range 3).flatMap fun d =>
    (List.range' 9 8).flatMap fun h => [(d, h, 0), (d, h, 30)]

/-- One iteration of the candidate loop of findNextAvailableSlots.  The
state is Except r acc: r is an early function return (some suggestions,
or none when a nested call exhausted its fuel), acc the suggestions so
far.  Candidates at or before now are skipped; an available candidate is
pushed and the loop returns once three are collected. -/
def slotStep (check : Nat → Nat → Option (Bool × List Appointment × List Nat))
    (now base duration : Nat) (st : Except (Option (List Nat)) (List Nat))
    (c : Nat × Nat × Nat) : Except (Option (List Nat)) (List Nat) :=
  match st with
  | .error r => .error r
  | .ok acc =>
    let slot := slotTime base c.1 c.2.1 c.2.2
    if slot ≤ now then .ok acc
    else
      match check slot duration with
      | none => .error none
      | some availability =>
        if availability.1 then
          if acc.length + 1 ≥ 3 then .error (some (acc ++ [slot]))
          else .ok (acc ++ [slot])
        else .ok acc

/-- The body of findNextAvailableSlots, parametrised by the availability
checker it re-invokes on every candidate (in the source this is
this.checkDoctorAvailability, the full method including suggestion
generation, not the bare conflict query). -/
def findNextAvailableSlotsGo
    (check : Nat → Nat → Option (Bool × List Appointment × List Nat))
    (now base duration : Nat) : Option (List Nat) :=
  match slotGrid.foldl (slotStep check now base duration) (.ok []) with
  | .error none => none
  | .error (some ts) => some ts
  | .ok acc => some acc

/-- checkDoctorAvailability with explicit fuel: runs the conflict query;
when conflicts exist it computes suggestedTimes through
findNextAvailableSlots, which re-invokes checkDoctorAvailability on each
candidate slot.  A result of none means the computation did not complete
within the given fuel — for no amount of fuel does the source's
unbounded mutual recursion produce a value in that case. -/
def checkDoctorAvailabilityF (appts : List Appointment) (now : Nat) :
    Nat → Nat → Nat → Nat → Option (Bool × List Appointment × List Nat)
  | 0, _, _, _ => none
  | fuel + 1, doctorId, startTime, duration =>
    let conflicts := findConflictingAppointments appts doctorId startTime duration
    if conflicts.isEmpty then some (true, conflicts, [])
    else
      match findNextAvailableSlotsGo
          (fun s d => checkDoctorAvailabilityF appts now fuel doctorId s d)
          now startTime duration with
      | none => none
      | some ts => some (false, conflicts, ts)

lemma checkDoctorAvailabilityF_succ (appts : List Appointment)
    (now fuel doctorId startTime duration : Nat) :
    checkDoctorAvailabilityF appts now (fuel + 1) doctorId startTime duration =
      (if (findConflictingAppointments appts doctorId startTime duration).isEmpty then
        some (true, findConflictingAppointments appts doctorId startTime duration, [])
      else
        match findNextAvailableSlotsGo
            (fun s d => checkDoctorAvailabilityF appts now fuel doctorId s d)
            now startTime duration with
        | none => none
        | some ts =>
          some (false, findConflictingAppointments appts doctorId startTime duration, ts)) :=
  rfl

lemma foldl_slotStep_error (check : Nat → Nat → Option (Bool × List Appointment × List Nat))
    (now base duration : Nat) (r : Option (List Nat)) :
    ∀ l : List (Nat × Nat × Nat),
      l.foldl (slotStep check now base duration) (.error r) = .error r := by
  intro l
  induction l with
  | nil => rfl
  | cons c t ih => simpa [slotStep] using ih

/-- C8: the slot search does not terminate.  Failing input: the doctor
has one active appointment at 9:00 (32400000 ms into day 0) for 30
minutes, the clock reads 0, and availability is requested for that same
9:00 slot.  The conflict query finds the appointment, so
checkDoctorAvailability starts the slot search; the first grid candidate
is the 9:00 slot itself, and the search calls checkDoctorAvailability on
it with identical arguments — the recursion never bottoms out, and the
fuelled interpreter returns no value for any amount of fuel. -/
theorem C8_slot_search_diverges (fuel : Nat) :
    checkDoctorAvailabilityF [⟨1, 1, 32400000, 30, .scheduled⟩] 0 fuel 1 32400000 30 =
      none := by
  induction fuel with
  | zero => rfl
  | succ n ih =>
    have hgrid : slotGrid = (0, 9, 0) :: slotGrid.tail := by decide
    have hconf : findConflictingAppointments [⟨1, 1, 32400000, 30, .scheduled⟩] 1
        32400000 30 = [⟨1, 1, 32400000, 30, .scheduled⟩] := by decide
    have hslot : slotTime 32400000 0 9 0 = 32400000 := by decide
    have hstep :
        slotStep (fun s d =>
            checkDoctorAvailabilityF [⟨1, 1, 32400000, 30, .scheduled⟩] 0 n 1 s d)
          0 32400000 30 (.ok []) (0, 9, 0) = .error none := by
      simp only [slotStep, hslot]
      rw [if_neg (by decide)]
      rw [ih]
    have hgo :
        findNextAvailableSlotsGo (fun s d =>
            checkDoctorAvailabilityF [⟨1, 1, 32400000, 30, .scheduled⟩] 0 n 1 s d)
          0 32400000 30 = none := by
      unfold findNextAvailableSlotsGo
      rw [hgrid, List.foldl_cons, hstep, foldl_slotStep_error]
    rw [checkDoctorAvailabilityF_succ, hconf, if_neg (by decide), hgo]

/-! ## Queue coordinator (backend/src/models/Queue.ts and
backend/src/services/queue.service.ts)

The queue collection is a list of entries; checkInTime and the clock are
abstract ticks.  The priority field is stored as one of the strings
high / medium / low, and the Mongo sorts with direction -1 on it compare
those strings bytewise descending. -/

/-- Queue entry status enumeration (stored strings: waiting, in-progress,
completed, cancelled). -/
inductive QStatus where
  | waiting | inProgress | completed | cancelled
deriving DecidableEq, Repr

/-- Priority enumeration (stored strings: high, medium, low). -/
inductive Priority where
  | high | medium | low
deriving DecidableEq, Repr

/-- The string stored in the priority field. -/
def priorityString : Priority → String
  | .high => "high"
  | .medium => "medium"
  | .low => "low"

/-- Bytewise (lexicographic by code point) strict comparison of character
lists — the BSON ordering of the stored strings. -/
def charsLt : List Char → List Char → Bool
  | [], [] => false
  | [], _ :: _ => true
  | _ :: _, [] => false
  | a :: as, b :: bs =>
    if a.toNat < b.toNat then true
    else if b.toNat < a.toNat then false
    else charsLt as bs

/-- The BSON order of two priority values: comparison of their stored
strings. -/
def priorityLt (p q : Priority) : Bool :=
  charsLt (priorityString p).data (priorityString q).data

/-- A Queue document (backend/src/models/Queue.ts). -/
structure QueueEntry where
  id : Nat
  visit : Nat
  patient : Nat
  doctor : Option Nat := none
  position : Nat
  status : QStatus
  priority : Priority
  checkInTime : Nat
  calledTime : Option Nat := none
  consultationStartTime : Option Nat := none
  consultationEndTime : Option Nat := none
  estimatedWaitTime : Nat
  actualWaitTime : Option Nat := none
  assignedRoom : Option String := none
  notes : Option String := none
deriving DecidableEq, Repr

/-- The waiting entries, in collection order. -/
def waitingOf (s : List QueueEntry) : List QueueEntry :=
  s.filter fun e => e.status == .waiting

/-- The ordering used by Queue.recalculatePositions:
sort({ priority: -1, checkInTime: 1 }) — priority by descending string
comparison, then checkInTime ascending. -/
def recalcLe (a b : QueueEntry) : Bool :=
  priorityLt b.priority a.priority ||
    (a.priority == b.priority && decide (a.checkInTime ≤ b.checkInTime))

/-- findByIdAndUpdate restricted to the position field: every entry whose
id matches gets the new position. -/
def setPositionById (s : List QueueEntry) (id pos : Nat) : List QueueEntry :=
  s.map fun e => if e.id == id then { e with position := pos } else e

/-- Queue.recalculatePositions: fetch the waiting entries sorted by
(priority desc, checkInTime asc) and write position i+1 to the i-th one
by id. -/
def recalculatePositions (s : List QueueEntry) : List QueueEntry :=
  let sorted := (waitingOf s).insertionSort fun a b => recalcLe a b = true
  sorted.enum.foldl (fun st ie => setPositionById st ie.2.id (ie.1 + 1)) s

/-- Queue.getNextPosition: the largest position among waiting entries (0
when none) plus one. -/
def getNextPosition (s : List QueueEntry) : Nat :=
  ((waitingOf s).map (fun e => e.position)).foldr max 0 + 1

/-- QueueService.addToQueue: reject when the visit is already queued,
otherwise append a waiting entry at position getNextPosition.  The id of
the new document is supplied by the caller (Mongo generates it). -/
def addToQueue (s : List QueueEntry) (newId visitId patientId : Nat)
    (priority : Priority) (estimatedWaitTime : Nat) (now : Nat) :
    Except String (List QueueEntry × QueueEntry) :=
  if s.any (fun e => e.visit == visitId) then
    .error "Visit already exists in queue"
  else
    let entry : QueueEntry :=
      { id := newId, visit := visitId, patient := patientId,
        position := getNextPosition s, status := .waiting, priority := priority,
        checkInTime := now, estimatedWaitTime := estimatedWaitTime }
    .ok (s ++ [entry], entry)

/-- QueueService.isValidStatusTransition: the transition table. -/
def isValidStatusTransition (fromStatus toStatus : QStatus) : Bool :=
  match fromStatus with
  | .waiting => toStatus == .inProgress || toStatus == .cancelled
  | .inProgress => toStatus == .completed || toStatus == .cancelled || toStatus == .waiting
  | .completed => false
  | .cancelled => toStatus == .waiting

/-- The update payload of QueueService.updateQueueStatus.  The request
also carries a doctorId, but doctorId is not a path of the Queue schema,
so the strict-mode findByIdAndUpdate drops it; it is omitted here. -/
structure QueueStatusUpdate where
  status : QStatus
  assignedRoom : Option String := none
  notes : Option String := none

/-- Queue.findById: the first entry with the given id. -/
def findById (s : List QueueEntry) (id : Nat) : Option QueueEntry :=
  s.find? fun e => e.id == id

/-- findByIdAndUpdate with a full replacement document for the matching
id. -/
def replaceById (s : List QueueEntry) (e' : QueueEntry) : List QueueEntry :=
  s.map fun e => if e.id == e'.id then e' else e

/-- The updated document written by updateQueueStatus: the payload fields
plus the timing block — calledTime and consultationStartTime when
entering in-progress from another status, consultationEndTime when
entering completed from another status.  No other field is touched. -/
def applyStatusUpdate (queueEntry : QueueEntry) (upd : QueueStatusUpdate)
    (now : Nat) : QueueEntry :=
  let e₁ : QueueEntry :=
    { queueEntry with
      status := upd.status,
      assignedRoom := match upd.assignedRoom with
        | some r => some r
        | none => queueEntry.assignedRoom,
      notes := match upd.notes with
        | some x => some x
        | none => queueEntry.notes }
  let e₂ : QueueEntry :=
    if upd.status == .inProgress && !(queueEntry.status == .inProgress) then
      { e₁ with calledTime := some now, consultationStartTime := some now }
    else e₁
  if upd.status == .completed && !(queueEntry.status == .completed) then
    { e₂ with consultationEndTime := some now }
  else e₂

/-- QueueService.updateQueueStatus: look the entry up, validate the
transition, write the update with its timing side effects, and
recalculate positions only when the new status is waiting.  Returns the
updated entry as well. -/
def updateQueueStatus (s : List QueueEntry) (queueId : Nat)
    (upd : QueueStatusUpdate) (now : Nat) :
    Except String (List QueueEntry × QueueEntry) :=
  match findById s queueId with
  | none => .error "Queue entry not found"
  | some queueEntry =>
    if !isValidStatusTransition queueEntry.status upd.status then
      .error "Invalid status transition"
    else
      let e₃ := applyStatusUpdate queueEntry upd now
      let s' := replaceById s e₃
      .ok (if upd.status == .waiting then recalculatePositions s' else s', e₃)

/-- Staff roles (backend/src/models/Staff.ts). -/
inductive SRole where
  | doctor | nurse | receptionist | admin
deriving DecidableEq, Repr

/-- The staff fields read by callNextPatient's doctor lookup. -/
structure StaffMember where
  id : Nat
  role : SRole
  isActive : Bool
deriving DecidableEq, Repr

/-- The ordering of the callNextPatient findOne:
sort({ priority: -1, position: 1, checkInTime: 1 }). -/
def callLe (a b : QueueEntry) : Bool :=
  priorityLt b.priority a.priority ||
    (a.priority == b.priority &&
      (decide (a.position < b.position) ||
        (a.position == b.position && decide (a.checkInTime ≤ b.checkInTime))))

/-- QueueService.callNextPatient: require an active doctor-role staff
member, take the first waiting entry under the call ordering, mark it
in-progress with doctor, calledTime, consultationStartTime and the
optional room, persist, then recalculate positions. -/
def callNextPatient (staff : List StaffMember) (s : List QueueEntry)
    (doctorId : Nat) (assignedRoom : Option String) (now : Nat) :
    Except String (List QueueEntry × QueueEntry) :=
  match staff.find? (fun st => st.id == doctorId && st.role == .doctor && st.isActive) with
  | none => .error "Doctor not found or inactive"
  | some _ =>
    match ((waitingOf s).insertionSort fun a b => callLe a b = true).head? with
    | none => .error "No patients waiting in queue"
    | some nextPatient =>
      let e' : QueueEntry :=
        { nextPatient with
          status := .inProgress, doctor := some doctorId,
          calledTime := some now, consultationStartTime := some now,
          assignedRoom := match assignedRoom with
            | some r => some r
            | none => nextPatient.assignedRoom }
      .ok (recalculatePositions (replaceById s e'), e')

/-- QueueService.removeFromQueue: findByIdAndUpdate to status cancelled
with the reason as note — no transition validation — then recalculate
positions. -/
def removeFromQueue (s : List QueueEntry) (queueId : Nat) (reason : String) :
    Except String (List QueueEntry × QueueEntry) :=
  match findById s queueId with
  | none => .error "Queue entry not found"
  | some e =>
    let e' : QueueEntry := { e with status := .cancelled, notes := some reason }
    .ok (recalculatePositions (replaceById s e'), e')

/-- A waiting entry with the given id, priority, check-in time and
position; visit and patient ids reuse the entry id. -/
def mkWaiting (id : Nat) (p : Priority) (t : Nat) (pos : Nat) : QueueEntry :=
  { id := id, visit := id, patient := id, position := pos, status := .waiting,
    priority := p, checkInTime := t, estimatedWaitTime := 15 }

/-- C1: the spec's three-patient scenario fails on the code.  Patients 1,
2, 3 check in at ticks 0, 30, 60 with priorities high, low, medium; after
recalculation the positions are medium 1, low 2, high 3 — not
high 1, medium 2, low 3 — because sort({ priority: -1 }) sorts the stored
strings bytewise descending and "medium" > "low" > "high". -/
theorem C1_recalculate_orders_medium_first :
    ((recalculatePositions
      [mkWaiting 1 .high 0 1, mkWaiting 2 .low 30 2, mkWaiting 3 .medium 60 3]).map
        fun e => (e.id, e.position)) = [(1, 3), (2, 2), (3, 1)] := by decide

/-- C5: the selection of callNextPatient fails on the code for the same
reason as C1.  With an active doctor 7 and waiting entries 1 (high
priority, position 1, checked in first) and 2 (medium priority, position
2, checked in later), the code calls patient 2, not the high-priority
patient 1, because sort({ priority: -1, ... }) puts the string "medium"
first.  The two error paths of the claim do hold: an unknown doctor gives
the not-found error and an empty waiting set gives the empty-queue
error. -/
theorem C5_call_next_prefers_medium_string :
    (match callNextPatient [⟨7, .doctor, true⟩]
        [mkWaiting 1 .high 0 1, mkWaiting 2 .medium 10 2] 7 none 100 with
      | .ok (_, e) => some (e.id, e.status, e.doctor, e.calledTime)
      | .error _ => none) = some (2, .inProgress, some 7, some 100) ∧
    (match callNextPatient [⟨7, .nurse, true⟩] [mkWaiting 1 .high 0 1] 7 none 100 with
      | .ok _ => none
      | .error msg => some msg) = some "Doctor not found or inactive" ∧
    (match callNextPatient [⟨7, .doctor, true⟩] [] 7 none 100 with
      | .ok _ => none
      | .error msg => some msg) = some "No patients waiting in queue" := by
  refine ⟨by decide, by decide, by decide⟩

/-- The state of a successful queue operation (used to chain concrete
scenarios). -/
def okState (r : Except String (List QueueEntry × QueueEntry)) : List QueueEntry :=
  match r with
  | .ok p => p.1
  | .error _ => []

/-- The scenario state of the C2 counterexample: enqueue visit 10 (entry
1) and visit 20 (entry 2), both medium priority, then cancel entry 1
through updateQueueStatus. -/
def c2State : List QueueEntry :=
  okState (updateQueueStatus
    (okState (addToQueue
      (okState (addToQueue [] 1 10 100 .medium 15 0)) 2 20 200 .medium 15 10))
    1 { status := .cancelled } 20)

/-- C2 (counterexample): after enqueue, enqueue, and the valid transition
waiting → cancelled of the first entry through updateQueueStatus, the
waiting set is the single entry 2 still holding position 2: the
positions are not {1}, so not every mutation of the waiting set's
membership re-establishes the invariant (updateQueueStatus only
recalculates when the new status is waiting, and addToQueue never
does). -/
theorem C2_position_invariant_counterexample :
    ((waitingOf c2State).map fun e => e.position) = [2] ∧
    ¬ ((waitingOf c2State).map fun e => e.position).Perm
        (List.range' 1 (waitingOf c2State).length) := by
  refine ⟨by decide, by decide⟩

/-- A completed entry for the C6 counterexample. -/
def c6Completed : QueueEntry := { mkWaiting 5 .low 0 1 with status := .completed }

/-- C6 (counterexample): removeFromQueue performs no transition
validation: on an entry whose status is completed it succeeds and moves
it to cancelled, while the claim says every transition out of completed
fails with an invalid-transition error and leaves the status
unchanged. -/
theorem C6_remove_from_completed_succeeds :
    c6Completed.status = .completed ∧
    (match removeFromQueue [c6Completed] 5 "cleanup" with
      | .ok (_, e) => some (e.status, e.notes)
      | .error _ => none) = some (.cancelled, some "cleanup") := by
  refine ⟨rfl, by decide⟩

/-- An in-progress entry with doctor, room and calledTime assigned, for
the C7 counterexample. -/
def c7InProgress : QueueEntry :=
  { id := 4, visit := 4, patient := 4, doctor := some 7, position := 1,
    status := .inProgress, priority := .low, checkInTime := 10,
    calledTime := some 50, consultationStartTime := some 50,
    estimatedWaitTime := 15, assignedRoom := some "R1" }

/-- C7 (counterexample): completing the consultation sets
consultationEndTime but computes no actualWaitTime (the claim says
actualWaitTime = calledTime − checkInTime = 40), and the transition
in-progress → waiting leaves the doctor and room assignment in place
(the claim says it clears them). -/
theorem C7_side_effects_counterexample :
    (match updateQueueStatus [c7InProgress] 4 { status := .completed } 100 with
      | .ok (_, e) => some (e.consultationEndTime, e.actualWaitTime)
      | .error _ => none) = some (some 100, none) ∧
    (match updateQueueStatus [c7InProgress] 4 { status := .waiting } 100 with
      | .ok (_, e) => some (e.doctor, e.assignedRoom)
      | .error _ => none) = some (some 7, some "R1") := by
  refine ⟨by decide, by decide⟩

/-! ### The position invariant established by recalculatePositions -/

/-- Rank of a priority in ascending BSON string order:
"high" < "low" < "medium". -/
def prank : Priority → Nat
  | .high => 0
  | .low => 1
  | .medium => 2

lemma priorityLt_iff (p q : Priority) : priorityLt p q = true ↔ prank p < prank q := by
  cases p <;> cases q <;> decide

lemma prank_injective {p q : Priority} (h : prank p = prank q) : p = q := by
  cases p <;> cases q <;> first | rfl | exact absurd h (by decide)

lemma recalcLe_iff (a b : QueueEntry) :
    recalcLe a b = true ↔
      (prank b.priority < prank a.priority ∨
        (a.priority = b.priority ∧ a.checkInTime ≤ b.checkInTime)) := by
  simp only [recalcLe, Bool.or_eq_true, Bool.and_eq_true, priorityLt_iff,
    beq_iff_eq, decide_eq_true_eq]

instance : IsTotal QueueEntry (fun a b => recalcLe a b = true) := by
  constructor
  intro a b
  simp only [recalcLe_iff]
  rcases Nat.lt_trichotomy (prank a.priority) (prank b.priority) with h | h | h
  · exact Or.inr (Or.inl h)
  · rcases Nat.le_total a.checkInTime b.checkInTime with ht | ht
    · exact Or.inl (Or.inr ⟨prank_injective h, ht⟩)
    · exact Or.inr (Or.inr ⟨prank_injective h.symm, ht⟩)
  · exact Or.inl (Or.inl h)

instance : IsTrans QueueEntry (fun a b => recalcLe a b = true) := by
  constructor
  intro a b c hab hbc
  simp only [recalcLe_iff] at *
  rcases hab with h₁ | ⟨e₁, t₁⟩ <;> rcases hbc with h₂ | ⟨e₂, t₂⟩
  · exact Or.inl (h₂.trans h₁)
  · exact Or.inl (by rw [← e₂]; exact h₁)
  · exact Or.inl (by rw [e₁]; exact h₂)
  · exact Or.inr ⟨e₁.trans e₂, t₁.trans t₂⟩

/-- Position that the enumerated sorted list assigns to an id. -/
def lookupPos (id : Nat) (ps : List (Nat × QueueEntry)) : Option Nat :=
  (ps.find? fun ie => ie.2.id == id).map fun ie => ie.1 + 1

/-- The effect of the position-writing loop on a single entry. -/
def applyPos (ps : List (Nat × QueueEntry)) (e : QueueEntry) : QueueEntry :=
  match lookupPos e.id ps with
  | some p => { e with position := p }
  | none => e

lemma applyPos_id (ps : List (Nat × QueueEntry)) (e : QueueEntry) :
    (applyPos ps e).id = e.id := by
  unfold applyPos; split <;> rfl

lemma applyPos_status (ps : List (Nat × QueueEntry)) (e : QueueEntry) :
    (applyPos ps e).status = e.status := by
  unfold applyPos; split <;> rfl

lemma applyPos_priority (ps : List (Nat × QueueEntry)) (e : QueueEntry) :
    (applyPos ps e).priority = e.priority := by
  unfold applyPos; split <;> rfl

lemma applyPos_checkInTime (ps : List (Nat × QueueEntry)) (e : QueueEntry) :
    (applyPos ps e).checkInTime = e.checkInTime := by
  unfold applyPos; split <;> rfl

lemma recalcLe_applyPos (ps : List (Nat × QueueEntry)) (a b : QueueEntry) :
    recalcLe (applyPos ps a) (applyPos ps b) = recalcLe a b := by
  unfold recalcLe
  rw [applyPos_priority, applyPos_priority, applyPos_checkInTime, applyPos_checkInTime]

/-- The position-writing fold of recalculatePositions equals a pointwise
map when the written ids are distinct: each entry receives the position
of its id in the enumerated sorted list. -/
lemma foldl_setPositionById (ps : List (Nat × QueueEntry)) (st : List QueueEntry)
    (hnd : (ps.map fun ie => ie.2.id).Nodup) :
    ps.foldl (fun acc ie => setPositionById acc ie.2.id (ie.1 + 1)) st =
      st.map (applyPos ps) := by
  induction ps generalizing st with
  | nil =>
    rw [List.foldl_nil,
      show applyPos ([] : List (Nat × QueueEntry)) = id from funext fun e => rfl,
      List.map_id]
  | cons p rest ih =>
    rw [List.map_cons, List.nodup_cons] at hnd
    have hp : ∀ ie ∈ rest, ie.2.id ≠ p.2.id := by
      intro ie hie hcontra
      exact hnd.1 (hcontra ▸ List.mem_map_of_mem (fun x => x.2.id) hie)
    rw [List.foldl_cons, ih _ hnd.2]
    unfold setPositionById
    rw [List.map_map]
    apply List.map_congr_left
    intro e _
    simp only [Function.comp_apply]
    by_cases h : e.id = p.2.id
    · rw [if_pos (by simpa using h)]
      have hrest : lookupPos ({ e with position := p.1 + 1 } : QueueEntry).id rest = none := by
        unfold lookupPos
        rw [List.find?_eq_none.mpr, Option.map_none']
        intro ie hie
        simpa [h] using hp ie hie
      have hcons : lookupPos e.id (p :: rest) = some (p.1 + 1) := by
        unfold lookupPos
        rw [List.find?_cons_of_pos _ (by simpa using h.symm)]
        rfl
      unfold applyPos
      rw [hrest, hcons]
    · rw [if_neg (by simpa using h)]
      have hcons : lookupPos e.id (p :: rest) = lookupPos e.id rest := by
        unfold lookupPos
        rw [List.find?_cons_of_neg _ (by simpa using fun he => h he.symm)]
      unfold applyPos
      rw [hcons]

/-- Over its own enumeration, the position writer maps the i-th entry of
the sorted list (enumerated from k) to position k + i + 1, so the list of
positions is the contiguous range starting at k + 1. -/
lemma map_applyPos_enumFrom (l : List QueueEntry) (k : Nat)
    (h : (l.map fun e => e.id).Nodup) :
    l.map (fun e => (applyPos (l.enumFrom k) e).position) =
      List.range' (k + 1) l.length := by
  induction l generalizing k with
  | nil => rfl
  | cons e t ih =>
    rw [List.map_cons, List.nodup_cons] at h
    have hhead : (applyPos ((e :: t).enumFrom k) e).position = k + 1 := by
      unfold applyPos lookupPos
      rw [List.enumFrom_cons, List.find?_cons_of_pos _ (by simp)]
      rfl
    have htail : ∀ x ∈ t,
        (applyPos ((e :: t).enumFrom k) x).position =
          (applyPos (t.enumFrom (k + 1)) x).position := by
      intro x hx
      have hne : e.id ≠ x.id := fun hcontra =>
        h.1 (hcontra ▸ List.mem_map_of_mem (fun y => y.id) hx)
      unfold applyPos lookupPos
      rw [List.enumFrom_cons, List.find?_cons_of_neg _ (by simpa using hne)]
    calc (e :: t).map (fun x => (applyPos ((e :: t).enumFrom k) x).position)
        = (applyPos ((e :: t).enumFrom k) e).position ::
            t.map (fun x => (applyPos ((e :: t).enumFrom k) x).position) := by
          rw [List.map_cons]
      _ = (k + 1) :: t.map (fun x => (applyPos (t.enumFrom (k + 1)) x).position) := by
          rw [hhead, List.map_congr_left htail]
      _ = (k + 1) :: List.range' (k + 2) t.length := by rw [ih (k + 1) h.2]
      _ = List.range' (k + 1) (e :: t).length := rfl

lemma waitingOf_map_applyPos (ps : List (Nat × QueueEntry)) (s : List QueueEntry) :
    waitingOf (s.map (applyPos ps)) = (waitingOf s).map (applyPos ps) := by
  unfold waitingOf
  induction s with
  | nil => rfl
  | cons e t ih =>
    rw [List.map_cons, List.filter_cons, List.filter_cons, applyPos_status]
    cases hw : (e.status == QStatus.waiting) <;> simp [hw, ih]

/-- The position invariant that recalculation establishes: some
enumeration of the waiting entries is sorted by the code's comparator
(priority by descending string order, then checkInTime ascending) and
carries positions exactly 1..N. -/
def positionsOk (s : List QueueEntry) : Prop :=
  ∃ ws : List QueueEntry, ws.Perm (waitingOf s) ∧
    ws.Sorted (fun a b => recalcLe a b = true) ∧
    ws.map (fun e => e.position) = List.range' 1 ws.length

/-- C2 (amended): whenever the stored ids are distinct,
recalculatePositions leaves the waiting entries with positions exactly
{1, ..., N} — no duplicates or gaps — ordered by the comparator the code
actually sorts with (priority by descending string comparison, i.e.
medium before low before high, then checkInTime ascending).  Since
callNextPatient, removeFromQueue, the explicit recalculation request and
updateQueueStatus into waiting all finish by calling recalculatePositions,
each of them re-establishes this invariant; addToQueue and
updateQueueStatus out of waiting do not recalculate. -/
theorem C2_recalculate_restores_invariant (s : List QueueEntry)
    (h : (s.map fun e => e.id).Nodup) :
    positionsOk (recalculatePositions s) := by
  have hwid : ((waitingOf s).map fun e => e.id).Nodup :=
    (List.Sublist.map _ (List.filter_sublist s)).nodup h
  have hperm :
      ((waitingOf s).insertionSort fun a b => recalcLe a b = true).Perm (waitingOf s) :=
    List.perm_insertionSort _ _
  have hsid :
      (((waitingOf s).insertionSort fun a b => recalcLe a b = true).map
        fun e => e.id).Nodup := ((hperm.map _).nodup_iff).mpr hwid
  have htab :
      ((((waitingOf s).insertionSort fun a b => recalcLe a b = true).enum.map
        fun ie => ie.2.id)).Nodup := by
    have hsnd :
        (((waitingOf s).insertionSort fun a b => recalcLe a b = true).enum.map
          fun ie => ie.2.id) =
          ((waitingOf s).insertionSort fun a b => recalcLe a b = true).map
            fun e => e.id := by
      rw [show (fun ie : Nat × QueueEntry => ie.2.id) =
        (fun e : QueueEntry => e.id) ∘ Prod.snd from rfl, ← List.map_map,
        show ((waitingOf s).insertionSort fun a b => recalcLe a b = true).enum =
          ((waitingOf s).insertionSort fun a b => recalcLe a b = true).enumFrom 0
          from rfl,
        List.enumFrom_map_snd]
    rw [hsnd]
    exact hsid
  have hre : recalculatePositions s =
      s.map (applyPos
        ((waitingOf s).insertionSort fun a b => recalcLe a b = true).enum) :=
    foldl_setPositionById _ _ htab
  refine ⟨((waitingOf s).insertionSort fun a b => recalcLe a b = true).map
    (applyPos ((waitingOf s).insertionSort fun a b => recalcLe a b = true).enum),
    ?_, ?_, ?_⟩
  · rw [hre, waitingOf_map_applyPos]
    exact hperm.map _
  · exact List.Pairwise.map _
      (fun a b hab => by rw [recalcLe_applyPos]; exact hab)
      (List.sorted_insertionSort _ _)
  · rw [List.map_map, List.length_map]
    exact map_applyPos_enumFrom _ 0 hsid

/-- Witness for C2_recalculate_restores_invariant on a concrete
two-entry queue with distinct ids. -/
theorem C2_recalculate_restores_invariant_witness :
    positionsOk (recalculatePositions [mkWaiting 1 .high 0 5, mkWaiting 2 .low 3 9]) :=
  C2_recalculate_restores_invariant
    [mkWaiting 1 .high 0 5, mkWaiting 2 .low 3 9] (by decide)

/-! ### Transition enforcement and side effects of updateQueueStatus -/

lemma applyStatusUpdate_status (e : QueueEntry) (upd : QueueStatusUpdate) (now : Nat) :
    (applyStatusUpdate e upd now).status = upd.status := by
  unfold applyStatusUpdate
  by_cases c₂ : (upd.status == QStatus.inProgress && !(e.status == QStatus.inProgress)) = true <;>
    by_cases c₃ : (upd.status == QStatus.completed && !(e.status == QStatus.completed)) = true <;>
      simp [c₂, c₃]

lemma applyStatusUpdate_id (e : QueueEntry) (upd : QueueStatusUpdate) (now : Nat) :
    (applyStatusUpdate e upd now).id = e.id := by
  unfold applyStatusUpdate
  by_cases c₂ : (upd.status == QStatus.inProgress && !(e.status == QStatus.inProgress)) = true <;>
    by_cases c₃ : (upd.status == QStatus.completed && !(e.status == QStatus.completed)) = true <;>
      simp [c₂, c₃]

lemma applyStatusUpdate_doctor (e : QueueEntry) (upd : QueueStatusUpdate) (now : Nat) :
    (applyStatusUpdate e upd now).doctor = e.doctor := by
  unfold applyStatusUpdate
  by_cases c₂ : (upd.status == QStatus.inProgress && !(e.status == QStatus.inProgress)) = true <;>
    by_cases c₃ : (upd.status == QStatus.completed && !(e.status == QStatus.completed)) = true <;>
      simp [c₂, c₃]

lemma applyStatusUpdate_actualWaitTime (e : QueueEntry) (upd : QueueStatusUpdate) (now : Nat) :
    (applyStatusUpdate e upd now).actualWaitTime = e.actualWaitTime := by
  unfold applyStatusUpdate
  by_cases c₂ : (upd.status == QStatus.inProgress && !(e.status == QStatus.inProgress)) = true <;>
    by_cases c₃ : (upd.status == QStatus.completed && !(e.status == QStatus.completed)) = true <;>
      simp [c₂, c₃]

lemma applyStatusUpdate_room (e : QueueEntry) (upd : QueueStatusUpdate) (now : Nat)
    (h : upd.assignedRoom = none) :
    (applyStatusUpdate e upd now).assignedRoom = e.assignedRoom := by
  unfold applyStatusUpdate
  by_cases c₂ : (upd.status == QStatus.inProgress && !(e.status == QStatus.inProgress)) = true <;>
    by_cases c₃ : (upd.status == QStatus.completed && !(e.status == QStatus.completed)) = true <;>
      simp [c₂, c₃, h]

lemma applyStatusUpdate_inProgressTiming (e : QueueEntry) (upd : QueueStatusUpdate)
    (now : Nat) (h₁ : upd.status = QStatus.inProgress) (h₂ : e.status ≠ QStatus.inProgress) :
    (applyStatusUpdate e upd now).calledTime = some now ∧
      (applyStatusUpdate e upd now).consultationStartTime = some now := by
  unfold applyStatusUpdate
  simp [h₁, h₂]

lemma applyStatusUpdate_completedTiming (e : QueueEntry) (upd : QueueStatusUpdate)
    (now : Nat) (h₁ : upd.status = QStatus.completed) (h₂ : e.status ≠ QStatus.completed) :
    (applyStatusUpdate e upd now).consultationEndTime = some now := by
  unfold applyStatusUpdate
  simp [h₁, h₂]

/-- updateQueueStatus rejects an invalid transition with the
invalid-transition error (and, being a pure function of the state,
returns no modified state at all). -/
lemma updateQueueStatus_invalid {s : List QueueEntry} {queueId : Nat}
    {upd : QueueStatusUpdate} {now : Nat} {e : QueueEntry}
    (hfind : findById s queueId = some e)
    (hv : isValidStatusTransition e.status upd.status = false) :
    updateQueueStatus s queueId upd now = .error "Invalid status transition" := by
  simp only [updateQueueStatus, hfind]
  rw [if_pos (by rw [hv]; rfl)]

/-- A successful updateQueueStatus implies the transition was valid and
returns exactly the applyStatusUpdate document. -/
lemma updateQueueStatus_ok {s st : List QueueEntry} {queueId : Nat}
    {upd : QueueStatusUpdate} {now : Nat} {e e' : QueueEntry}
    (hfind : findById s queueId = some e)
    (hupd : updateQueueStatus s queueId upd now = .ok (st, e')) :
    isValidStatusTransition e.status upd.status = true ∧
      e' = applyStatusUpdate e upd now := by
  simp only [updateQueueStatus, hfind] at hupd
  by_cases hv : isValidStatusTransition e.status upd.status = true
  · refine ⟨hv, ?_⟩
    rw [if_neg (by rw [hv]; simp)] at hupd
    have := congrArg (fun r : Except String (List QueueEntry × QueueEntry) =>
      match r with
      | .ok p => p.2
      | .error _ => e') hupd
    simpa using this.symm
  · rw [if_pos (by rw [Bool.eq_false_iff.mpr hv]; rfl)] at hupd
    cases hupd

/-- The successful branch of updateQueueStatus in closed form. -/
lemma updateQueueStatus_ok_eq {s : List QueueEntry} {queueId : Nat}
    {upd : QueueStatusUpdate} {now : Nat} {e : QueueEntry}
    (hfind : findById s queueId = some e)
    (hv : isValidStatusTransition e.status upd.status = true) :
    updateQueueStatus s queueId upd now =
      .ok (if upd.status == QStatus.waiting then
            recalculatePositions (replaceById s (applyStatusUpdate e upd now))
          else replaceById s (applyStatusUpdate e upd now),
        applyStatusUpdate e upd now) := by
  simp only [updateQueueStatus, hfind]
  rw [if_neg (by rw [hv]; simp)]

/-- replaceById with a document keeping the id of the found entry is
found again as the replacement. -/
lemma findById_replaceById {s : List QueueEntry} {id : Nat} {e e' : QueueEntry}
    (hfind : findById s id = some e) (hid : e'.id = e.id) :
    findById (replaceById s e') id = some e' := by
  have heid : e.id = id := by
    have := List.find?_some hfind
    simpa using this
  induction s with
  | nil => simp [findById] at hfind
  | cons a t ih =>
    unfold findById replaceById at *
    by_cases ha : a.id = id
    · rw [List.find?_cons_of_pos _ (by simpa using ha)] at hfind
      have hae : a = e := by simpa using hfind
      rw [List.map_cons, List.find?_cons_of_pos]
      · simp [hae, hid, heid]
      · simp [hae, hid, heid, ha]
    · rw [List.find?_cons_of_neg _ (by simpa using ha)] at hfind
      rw [List.map_cons]
      rw [List.find?_cons_of_neg]
      · exact ih hfind
      · have : a.id ≠ e'.id := by rw [hid, heid]; exact ha
        simp [this, ha]

/-- C6 (amended): updateQueueStatus enforces exactly the transition
table — waiting→in-progress, waiting→cancelled, in-progress→completed,
in-progress→cancelled, in-progress→waiting, cancelled→waiting; any other
attempt through updateQueueStatus fails with the invalid-transition error
and the entry keeps its status (the function returns no modified state);
the sequence waiting→in-progress→completed always succeeds; but
removeFromQueue performs no validation: it sets any existing entry,
whatever its current status (completed included), to cancelled with the
reason as note. -/
theorem C6_amended_transition_enforcement :
    (∀ a b : QStatus, isValidStatusTransition a b = true ↔
        ((a, b) = (QStatus.waiting, QStatus.inProgress) ∨
          (a, b) = (QStatus.waiting, QStatus.cancelled) ∨
          (a, b) = (QStatus.inProgress, QStatus.completed) ∨
          (a, b) = (QStatus.inProgress, QStatus.cancelled) ∨
          (a, b) = (QStatus.inProgress, QStatus.waiting) ∨
          (a, b) = (QStatus.cancelled, QStatus.waiting))) ∧
    (∀ (s : List QueueEntry) (queueId : Nat) (upd : QueueStatusUpdate) (now : Nat)
        (e : QueueEntry), findById s queueId = some e →
        isValidStatusTransition e.status upd.status = false →
        updateQueueStatus s queueId upd now = .error "Invalid status transition") ∧
    (∀ (s st : List QueueEntry) (queueId : Nat) (upd : QueueStatusUpdate) (now : Nat)
        (e e' : QueueEntry), findById s queueId = some e →
        updateQueueStatus s queueId upd now = .ok (st, e') →
        isValidStatusTransition e.status upd.status = true ∧ e'.status = upd.status) ∧
    (∀ (s : List QueueEntry) (queueId : Nat) (now₁ now₂ : Nat) (e : QueueEntry),
        findById s queueId = some e → e.status = QStatus.waiting →
        ∃ st₁ e₁, updateQueueStatus s queueId { status := .inProgress } now₁ = .ok (st₁, e₁) ∧
          ∃ st₂ e₂, updateQueueStatus st₁ queueId { status := .completed } now₂ = .ok (st₂, e₂) ∧
            e₁.status = QStatus.inProgress ∧ e₂.status = QStatus.completed) ∧
    (∀ (s : List QueueEntry) (queueId : Nat) (reason : String) (e : QueueEntry),
        findById s queueId = some e →
        removeFromQueue s queueId reason =
          .ok (recalculatePositions
              (replaceById s { e with status := .cancelled, notes := some reason }),
            { e with status := .cancelled, notes := some reason })) := by
  refine ⟨?_, ?_, ?_, ?_, ?_⟩
  · intro a b
    cases a <;> cases b <;> decide
  · intro s queueId upd now e hfind hv
    exact updateQueueStatus_invalid hfind hv
  · intro s st queueId upd now e e' hfind hupd
    obtain ⟨hv, he⟩ := updateQueueStatus_ok hfind hupd
    exact ⟨hv, by rw [he, applyStatusUpdate_status]⟩
  · intro s queueId now₁ now₂ e hfind hw
    have hv₁ : isValidStatusTransition e.status QStatus.inProgress = true := by
      rw [hw]; rfl
    have h₁ := @updateQueueStatus_ok_eq s queueId { status := .inProgress } now₁ e hfind hv₁
    rw [show (QStatus.inProgress == QStatus.waiting) = false from rfl, if_neg (by simp)] at h₁
    refine ⟨_, _, h₁, ?_⟩
    have hfind₂ : findById (replaceById s
        (applyStatusUpdate e { status := .inProgress } now₁)) queueId =
        some (applyStatusUpdate e { status := .inProgress } now₁) :=
      findById_replaceById hfind (applyStatusUpdate_id _ _ _)
    have hst₁ : (applyStatusUpdate e { status := .inProgress } now₁).status =
        QStatus.inProgress := applyStatusUpdate_status _ _ _
    have hv₂ : isValidStatusTransition
        (applyStatusUpdate e { status := .inProgress } now₁).status
        QStatus.completed = true := by rw [hst₁]; rfl
    have h₂ := @updateQueueStatus_ok_eq _ queueId { status := .completed } now₂ _ hfind₂ hv₂
    rw [show (QStatus.completed == QStatus.waiting) = false from rfl, if_neg (by simp)] at h₂
    exact ⟨_, _, h₂, hst₁, applyStatusUpdate_status _ _ _⟩
  · intro s queueId reason e hfind
    simp only [removeFromQueue, hfind]

/-- Witness for C6_amended_transition_enforcement: the check-in sequence
waiting → in-progress → completed on a one-entry queue. -/
theorem C6_amended_transition_enforcement_witness :
    findById [mkWaiting 1 .low 0 1] 1 = some (mkWaiting 1 .low 0 1) ∧
    (mkWaiting 1 .low 0 1).status = QStatus.waiting ∧
    (∃ st₁ e₁,
      updateQueueStatus [mkWaiting 1 .low 0 1] 1 { status := .inProgress } 5 = .ok (st₁, e₁) ∧
      ∃ st₂ e₂, updateQueueStatus st₁ 1 { status := .completed } 9 = .ok (st₂, e₂) ∧
        e₁.status = QStatus.inProgress ∧ e₂.status = QStatus.completed) :=
  ⟨by decide, rfl,
    C6_amended_transition_enforcement.2.2.2.1 [mkWaiting 1 .low 0 1] 1 5 9
      (mkWaiting 1 .low 0 1) (by decide) rfl⟩

/-- C7 (amended): on a successful updateQueueStatus the written entry
carries the requested status; entering in-progress from another status
sets calledTime and consultationStartTime to the clock; entering
completed from another status sets consultationEndTime only — no
actualWaitTime is computed; and the doctor assignment is never touched
(the payload's doctorId is not a schema path), nor the room when the
payload carries none, so in-progress → waiting does not clear them. -/
theorem C7_amended_side_effects (s st : List QueueEntry) (queueId : Nat)
    (upd : QueueStatusUpdate) (now : Nat) (e e' : QueueEntry)
    (hfind : findById s queueId = some e)
    (hupd : updateQueueStatus s queueId upd now = .ok (st, e')) :
    e'.status = upd.status ∧
    e'.doctor = e.doctor ∧
    e'.actualWaitTime = e.actualWaitTime ∧
    (upd.assignedRoom = none → e'.assignedRoom = e.assignedRoom) ∧
    (upd.status = QStatus.inProgress → e.status ≠ QStatus.inProgress →
      e'.calledTime = some now ∧ e'.consultationStartTime = some now) ∧
    (upd.status = QStatus.completed → e.status ≠ QStatus.completed →
      e'.consultationEndTime = some now) := by
  obtain ⟨hv, he⟩ := updateQueueStatus_ok hfind hupd
  subst he
  exact ⟨applyStatusUpdate_status _ _ _, applyStatusUpdate_doctor _ _ _,
    applyStatusUpdate_actualWaitTime _ _ _,
    fun h => applyStatusUpdate_room _ _ _ h,
    fun h₁ h₂ => applyStatusUpdate_inProgressTiming _ _ _ h₁ h₂,
    fun h₁ h₂ => applyStatusUpdate_completedTiming _ _ _ h₁ h₂⟩

/-- Witness for C7_amended_side_effects: calling the waiting entry 1
in-progress at clock 5. -/
theorem C7_amended_side_effects_witness :
    findById [mkWaiting 1 .low 0 1] 1 = some (mkWaiting 1 .low 0 1) ∧
    (∃ st e', updateQueueStatus [mkWaiting 1 .low 0 1] 1 { status := .inProgress } 5 =
        .ok (st, e') ∧
      e'.status = QStatus.inProgress ∧ e'.doctor = (mkWaiting 1 .low 0 1).doctor) := by
  refine ⟨by decide, ?_⟩
  have hfind : findById [mkWaiting 1 .low 0 1] 1 = some (mkWaiting 1 .low 0 1) := by decide
  have hupd := @updateQueueStatus_ok_eq _ 1 { status := .inProgress } 5 _ hfind (by decide)
  rw [show (QStatus.inProgress == QStatus.waiting) = false from rfl, if_neg (by simp)] at hupd
  refine ⟨_, _, hupd, ?_, ?_⟩
  · exact (C7_amended_side_effects _ _ 1 { status := .inProgress } 5 _ _ hfind hupd).1
  · exact (C7_amended_side_effects _ _ 1 { status := .inProgress } 5 _ _ hfind hupd).2.1

end ClinicQueue
